import Mathlib

/-!
Verification of the go2type type-resolution engine (src/main.go).

The Go source is shallowly embedded: strings are Lean strings (the string
helpers from the Go standard library are re-implemented structurally over
the character list so that concrete computations reduce), Go maps become
association lists with overwrite-on-insert, and the IO-performing package
loaders (golang.org/x/tools/go/packages.Load, invoked from
parseExternalType and parseInternalType) become oracle parameters.
Go functions that can panic or recurse without bound are embedded with
Option / Except results and a fuel argument; fuel is consumed on every
recursive step, so a computation diverges in Go exactly when the embedding
returns none for every fuel value.
-/

/-- Embedding of strings.Split (Go) on character lists: scans left to right,
cutting at each non-overlapping occurrence of the separator.  After a match
the remaining separator characters are consumed via the skip counter, which
keeps the recursion structural. -/
def splitListAux (sep : List Char) : List Char → List Char → Nat → List (List Char)
  | [], acc, _ => [acc.reverse]
  | _ :: xs, acc, Nat.succ skip => splitListAux sep xs acc skip
  | x :: xs, acc, 0 =>
    if sep.isPrefixOf (x :: xs) then
      acc.reverse :: splitListAux sep xs [] (sep.length - 1)
    else
      splitListAux sep xs (x :: acc) 0

/-- strings.Split(s, sep) for a non-empty separator (every call site in
src/main.go uses a non-empty literal separator). -/
def goSplitOn (s sep : String) : List String :=
  match sep.data with
  | [] => [s]
  | _ :: _ => (splitListAux sep.data s.data [] 0).map (fun l => ⟨l⟩)

/-- strings.HasPrefix. -/
def goHasPrefix (s p : String) : Bool := p.data.isPrefixOf s.data

/-- strings.HasSuffix. -/
def goHasSuffix (s p : String) : Bool := p.data.reverse.isPrefixOf s.data.reverse

/-- strings.TrimPrefix. -/
def goTrimPrefix (s p : String) : String :=
  if goHasPrefix s p then ⟨s.data.drop p.data.length⟩ else s

/-- strings.TrimSuffix. -/
def goTrimSuffix (s p : String) : String :=
  if goHasSuffix s p then ⟨s.data.take (s.data.length - p.data.length)⟩ else s

/-- Whether sub occurs as a contiguous run inside l. -/
def listIsInfixOf (sub : List Char) : List Char → Bool
  | [] => sub.isEmpty
  | x :: xs => sub.isPrefixOf (x :: xs) || listIsInfixOf sub xs

/-- strings.Contains. -/
def goContains (s sub : String) : Bool := listIsInfixOf sub.data s.data

/-- ASCII whitespace, the fragment of unicode.IsSpace relevant to source
comments (space, tab, newline, carriage return, vertical tab, form feed). -/
def isSpaceChar (c : Char) : Bool :=
  c = ' ' || c = '\t' || c = '\n' || c = '\r' || c = '\x0b' || c = '\x0c'

/-- strings.TrimSpace, restricted to ASCII whitespace. -/
def goTrimSpace (s : String) : String :=
  ⟨((s.data.dropWhile isSpaceChar).reverse.dropWhile isSpaceChar).reverse⟩

/-- unicode.ToUpper restricted to ASCII (the repository applies it to Go
identifiers and package names). -/
def asciiToUpper (c : Char) : Char :=
  if 'a' ≤ c ∧ c ≤ 'z' then Char.ofNat (c.toNat - 32) else c

/-- unicode.ToLower restricted to ASCII. -/
def asciiToLower (c : Char) : Char :=
  if 'A' ≤ c ∧ c ≤ 'Z' then Char.ofNat (c.toNat + 32) else c

/-- cases.Title(language.Und, cases.NoLower) applied to a single word (Go
package names contain no separators, so Title only upcases the first
letter and NoLower leaves the rest unchanged). -/
def capitalizeFirst (s : String) : String :=
  match s.data with
  | [] => s
  | c :: cs => ⟨asciiToUpper c :: cs⟩

/-- ExtractAfterLastSlash (src/main.go): the substring after the last
slash, or the whole string when there is no slash. -/
def ExtractAfterLastSlash (s : String) : String :=
  ((goSplitOn s "/").getLast?).getD s

/-- Lookup in an association list standing for a Go map read m[k]. -/
def lookupList (m : List (String × String)) (k : String) : Option String :=
  (m.find? (fun p => p.1 == k)).map (·.2)

/-- Go map assignment m[k] = v: overwrite the binding if the key is
present, otherwise add it. -/
def mapInsert (m : List (String × String)) (k v : String) : List (String × String) :=
  if m.any (fun p => p.1 == k) then
    m.map (fun p => if p.1 == k then (k, v) else p)
  else
    m ++ [(k, v)]

/-- A sequence of Go map assignments, one per entry. -/
def mapInsertList (m entries : List (String × String)) : List (String × String) :=
  entries.foldl (fun acc kv => mapInsert acc kv.1 kv.2) m

/-- HeaderInfo (src/main.go lines 43-48). -/
structure HeaderInfo where
  headerKey : String
  safeName : String
  source : String
  storageKey : String
deriving DecidableEq

/-- HandlerInfo (src/main.go lines 50-58). -/
structure HandlerInfo where
  name : String
  method : String
  path : String
  inputType : String
  outputType : String
  urlParams : List String
  headers : List HeaderInfo
deriving DecidableEq

/-- FieldInfo (src/main.go lines 66-73). -/
structure FieldInfo where
  packageName : String
  name : String
  type : String
  jsonName : String
  isArray : Bool
  isOptional : Bool
deriving DecidableEq

/-- TypeInfo (src/main.go lines 60-64). -/
structure TypeInfo where
  name : String
  fullName : String
  fields : List FieldInfo
deriving DecidableEq

/-- defaultTypeMappings (src/main.go lines 1035-1056). -/
def defaultTypeMappings : List (String × String) :=
  [("int", "number"),
   ("int8", "number"),
   ("int16", "number"),
   ("int32", "number"),
   ("int64", "number"),
   ("uint", "number"),
   ("uint8", "number"),
   ("uint16", "number"),
   ("uint32", "number"),
   ("uint64", "number"),
   ("float32", "number"),
   ("float64", "number"),
   ("string", "string"),
   ("bool", "boolean"),
   ("byte", "number"),
   ("rune", "number"),
   ("error", "Error"),
   ("uuid.UUID", "string /* uuid */"),
   ("pgtypes.Timestamptz", "string /* date-time */"),
   ("types.Interface", "any")]

/-- The type-mapping table built at the top of parsePackage (src/main.go
lines 480-494): default mappings first, then the user-supplied custom
mappings, then the date-mode entries, each later assignment overwriting
earlier ones. -/
def buildTypeMappings (customTypeMappings : List (String × String)) (useDateObject : Bool) :
    List (String × String) :=
  let typeMappings := mapInsertList [] defaultTypeMappings
  let typeMappings := mapInsertList typeMappings customTypeMappings
  if useDateObject then
    mapInsert (mapInsert typeMappings "time.Time" "Date") "pgtype.Timestamptz" "Date"
  else
    mapInsert typeMappings "time.Time" "string /* date-time */"

/-- The fragment of go/ast type expressions handled by parseFieldType
(src/main.go lines 865-891).  For a selector expression pkg.Type the Go
code prints the receiver with fmt.Sprintf, which for the identifier
receivers produced by the parser is the package alias; the x component
stores that printed form.  The unsupported constructor stands for every
other go/ast expression shape, which the Go default case maps to
"unknown". -/
inductive GoExpr
  | ident (name : String)
  | selector (x : String) (sel : String)
  | star (x : GoExpr)
  | array (elt : GoExpr)
  | mapType (key value : GoExpr)
  | unsupported
deriving DecidableEq

/-- parseFieldType (src/main.go lines 865-891): returns the resolved type
string, the true (lookup-key) type, isOptional, isArray. -/
def parseFieldType (expr : GoExpr) (typeMappings : List (String × String)) :
    String × String × Bool × Bool :=
  match expr with
  | .ident name =>
    match lookupList typeMappings name with
    | some mappedType => (mappedType, name, false, false)
    | none => (name, name, false, false)
  | .selector x sel =>
    let fullType := x ++ "." ++ sel
    match lookupList typeMappings fullType with
    | some mappedType => (mappedType, fullType, false, false)
    | none => (fullType, fullType, false, false)
  | .star x =>
    let r := parseFieldType x typeMappings
    (r.1, r.2.1, true, false)
  | .array elt =>
    let r := parseFieldType elt typeMappings
    ("Array<" ++ r.1 ++ ">", r.2.1, false, true)
  | .mapType key value =>
    let rk := parseFieldType key typeMappings
    let rv := parseFieldType value typeMappings
    ("\x7b [key: " ++ rk.1 ++ "]: " ++ rv.1 ++ " \x7d", "map", false, false)
  | .unsupported => ("unknown", "unknown", false, false)

/-- One field of a go/ast struct declaration as consumed by parseType: the
declared names, the type expression, and the name part of the json struct
tag (getJSONTag, src/main.go lines 923-934, already applied; the
reflect.StructTag parsing it delegates to is standard-library code). -/
structure GoAstField where
  names : List String
  fieldExpr : GoExpr
  jsonTag : String
deriving DecidableEq

/-- parseType (src/main.go lines 834-863). -/
def parseType (name : String) (structFields : List GoAstField)
    (typeMappings : List (String × String)) : TypeInfo :=
  let fields := structFields.foldr
    (fun field acc =>
      match field.names with
      | fieldName :: _ =>
        let (fieldType, trueType, isOptional, isArray) := parseFieldType field.fieldExpr typeMappings
        let jsonName := field.jsonTag
        let typescriptFieldName := if jsonName ≠ "" then jsonName else fieldName
        let fieldType := if isOptional then fieldType ++ " | null" else fieldType
        { packageName := trueType, name := typescriptFieldName, type := fieldType,
          jsonName := jsonName, isArray := isArray, isOptional := isOptional } :: acc
      | [] => acc)
    []
  { name := name, fullName := name, fields := fields }

/-- The fragment of go/types types handled by parseFieldTypeFromTypes
(src/main.go lines 894-921).  The named constructor stands for the default
case, carrying the printed form t.String(). -/
inductive GoStaticType
  | basic (name : String)
  | pointer (elem : GoStaticType)
  | slice (elem : GoStaticType)
  | mapType (key elem : GoStaticType)
  | interfaceType
  | named (str : String)
deriving DecidableEq

/-- parseFieldTypeFromTypes (src/main.go lines 894-921): returns the
resolved type string, the package-name key, and a boolean consumed by
every caller as isOptional. -/
def parseFieldTypeFromTypes (t : GoStaticType) (typeMappings : List (String × String)) :
    String × String × Bool :=
  match t with
  | .basic name =>
    match lookupList defaultTypeMappings name with
    | some mappedType => (mappedType, name, false)
    | none => (name, name, false)
  | .pointer elem =>
    let r := parseFieldTypeFromTypes elem typeMappings
    (r.1 ++ " | null", r.2.1, true)
  | .slice elem =>
    let r := parseFieldTypeFromTypes elem typeMappings
    ("Array<" ++ r.1 ++ ">", r.2.1, true)
  | .mapType key elem =>
    let rk := parseFieldTypeFromTypes key typeMappings
    let rv := parseFieldTypeFromTypes elem typeMappings
    ("\x7b [key: " ++ rk.1 ++ "]: " ++ rv.1 ++ " \x7d", "map", false)
  | .interfaceType => ("any", "any", false)
  | .named str =>
    let typeName := ExtractAfterLastSlash str
    match lookupList typeMappings typeName with
    | some mappedType => (mappedType, typeName, false)
    | none => ("unknown", "unknown", false)

/-- One field of a go/types struct as consumed by parseTypeObject: the
field name, its static type, and the raw json tag value
reflect.StructTag(t.Tag(i)).Get("json") (standard-library tag parsing
already applied). -/
structure GoStaticField where
  name : String
  fieldType : GoStaticType
  jsonTag : String
deriving DecidableEq

/-- The underlying type of a go/types object as case-split by
parseTypeObject (src/main.go lines 745-782): a struct, one of the
scalar-like kinds (Basic, Slice, Map, Interface) which share a code path,
or an unsupported kind. -/
inductive GoUnderlying
  | structType (fields : List GoStaticField)
  | scalarLike (t : GoStaticType)
  | unsupportedKind (desc : String)
deriving DecidableEq

/-- parseTypeObject (src/main.go lines 745-782).  Note that the FieldInfo
records it builds never set IsArray. -/
def parseTypeObject (objName : String) (underlying : GoUnderlying)
    (typeMappings : List (String × String)) : Except String TypeInfo :=
  match underlying with
  | .structType structFields =>
    let fields := structFields.map (fun field =>
      let (fieldType, packageName, isOptional) := parseFieldTypeFromTypes field.fieldType typeMappings
      let jsonName0 := ((goSplitOn field.jsonTag ",").headD "")
      let jsonName := if jsonName0 = "" then field.name else jsonName0
      { packageName := packageName, name := jsonName, type := fieldType,
        jsonName := jsonName, isArray := false, isOptional := isOptional : FieldInfo })
    .ok { name := objName, fullName := objName, fields := fields }
  | .scalarLike t =>
    let (fieldType, packageName, isOptional) := parseFieldTypeFromTypes t typeMappings
    .ok { name := objName, fullName := objName,
          fields := [{ packageName := packageName, name := objName, type := fieldType,
                       jsonName := objName, isArray := false, isOptional := isOptional }] }
  | .unsupportedKind desc =>
    .error ("unsupported type kind for " ++ objName ++ ": " ++ desc)

/-- toTypescriptSafeHeader (src/main.go lines 979-996): lowercase, hyphens
to underscores, strip every character outside [a-z0-9_], and guard a
leading digit with an underscore. -/
def toTypescriptSafeHeader (s : String) : String :=
  let s1 : String := ⟨s.data.map asciiToLower⟩
  let s2 : String := ⟨s1.data.map (fun c => if c = '-' then '_' else c)⟩
  let s3 : String :=
    ⟨s2.data.filter (fun c => ('a' ≤ c ∧ c ≤ 'z') ∨ ('0' ≤ c ∧ c ≤ '9') ∨ c = '_')⟩
  match s3.data with
  | c :: _ => if '0' ≤ c ∧ c ≤ '9' then "_" ++ s3 else s3
  | [] => s3

/-- parseHeaderDirective (src/main.go lines 998-1026). -/
def parseHeaderDirective (directive : String) : HeaderInfo :=
  match goSplitOn directive ":" with
  | [p0, p1, p2] =>
    { headerKey := p1, safeName := toTypescriptSafeHeader p1, source := p0, storageKey := p2 }
  | [p0, p1] =>
    let storageKey := if p0 ≠ "input" then p1 else ""
    { headerKey := p1, safeName := toTypescriptSafeHeader p1, source := p0, storageKey := storageKey }
  | _ =>
    { headerKey := directive, safeName := toTypescriptSafeHeader directive,
      source := "input", storageKey := "" }

/-- Header-directive semantics transcribed from the words of the spec
(section 4.5): a 3-part source:headerKey:storageKey directive takes the
explicit storage key, a 2-part source:headerKey directive defaults the
storage key to headerKey for storage sources and to the empty string for
the input source, and any other shape falls back to source input, empty
storage key, and the raw text as header key.  Used only to compare the
code against the spec. -/
def headerDirectiveSpec (directive : String) : HeaderInfo :=
  match goSplitOn directive ":" with
  | [src, hk, sk] =>
    { headerKey := hk, safeName := toTypescriptSafeHeader hk, source := src, storageKey := sk }
  | [src, hk] =>
    { headerKey := hk, safeName := toTypescriptSafeHeader hk, source := src,
      storageKey := if src = "input" then "" else hk }
  | _ =>
    { headerKey := directive, safeName := toTypescriptSafeHeader directive,
      source := "input", storageKey := "" }

/-- formatHookName (src/main.go lines 1028-1033).  The Go code indexes
rune 0 of the suffix-stripped name unconditionally; when the stripped name
is empty that indexing panics, which the embedding records as none. -/
def formatHookName (name : String) : Option String :=
  let name := goTrimSuffix name "Handler"
  match name.data with
  | [] => none
  | c :: cs => some ⟨asciiToUpper c :: cs⟩

/-- Accumulator of parseHandlerComments (src/main.go lines 936-962). -/
structure CommentScan where
  method : String
  path : String
  inputType : String
  outputType : String
  urlParams : List String
  headers : List HeaderInfo
deriving DecidableEq

/-- One iteration of the comment loop in parseHandlerComments: the Go
switch tries the markers in order and only the first matching case runs. -/
def processComment (acc : CommentScan) (text : String) : CommentScan :=
  if goContains text "@Method" then
    { acc with method := goTrimSpace ((goSplitOn text "@Method").getD 1 "") }
  else if goContains text "@Path" then
    let path := goTrimSpace ((goSplitOn text "@Path").getD 1 "")
    let newParams := (goSplitOn path "/").filterMap
      (fun part => if goHasPrefix part ":" then some (goTrimPrefix part ":") else none)
    { acc with path := path, urlParams := acc.urlParams ++ newParams }
  else if goContains text "@Input" then
    { acc with inputType := goTrimSpace ((goSplitOn text "@Input").getD 1 "") }
  else if goContains text "@Output" then
    { acc with outputType := goTrimSpace ((goSplitOn text "@Output").getD 1 "") }
  else if goContains text "@Header" then
    { acc with headers :=
        acc.headers ++ [parseHeaderDirective (goTrimSpace ((goSplitOn text "@Header").getD 1 ""))] }
  else acc

/-- parseHandlerComments (src/main.go lines 936-977) for a function named
fnName whose doc block is docList.  ok none models the nil return (not a
handler); the error value models the runtime panic raised inside
formatHookName when the stripped function name is empty. -/
def parseHandlerComments (fnName : String) (docList : List String) :
    Except String (Option HandlerInfo) :=
  let acc := docList.foldl processComment ⟨"", "", "", "", [], []⟩
  if acc.method ≠ "" ∧ acc.path ≠ "" then
    match formatHookName fnName with
    | some hookName =>
      .ok (some { name := hookName, method := acc.method, path := acc.path,
                  inputType := acc.inputType, outputType := acc.outputType,
                  urlParams := acc.urlParams, headers := acc.headers })
    | none => .error "runtime error: index out of range [0] with length 0"
  else
    .ok none

/-- The outcome of go/parser.ParseFile on one source file: either an
abstract syntax tree or a parse error. -/
inductive ParseOutcome (α : Type)
  | ok (ast : α)
  | failed (msg : String)
deriving DecidableEq

/-- go/parser.ParseDir over the .go files of one directory: every file
that parses contributes its tree, and the FIRST parse error encountered is
returned alongside the partial result (the documented contract of
parser.ParseDir, relied on at src/main.go lines 496-500). -/
def goParseDir {α : Type} (files : List (String × ParseOutcome α)) :
    List α × Option String :=
  files.foldl
    (fun acc file =>
      match file.2 with
      | .ok ast => (acc.1 ++ [ast], acc.2)
      | .failed msg => (acc.1, acc.2.orElse (fun _ => some msg)))
    ([], none)

/-- The parse step at the top of parsePackage (src/main.go lines 496-500):
parser.ParseDir is called and any returned error aborts the package with
an "error parsing directory" failure; only when no file failed does the
rest of the pass (abstracted as the continuation rest) run over the parsed
files. -/
def parsePackageParse {α β : Type} (files : List (String × ParseOutcome α))
    (rest : List α → β) : Except String β :=
  let r := goParseDir files
  match r.2 with
  | some e => .error ("error parsing directory: " ++ e)
  | none => .ok (rest r.1)

/-- A function declaration as seen by the init-time scanner: its name and
its doc-comment lines. -/
structure GoFuncDecl where
  name : String
  doc : List String
deriving DecidableEq

/-- A parsed source file as seen by the init-time scanner. -/
structure GoScanFile where
  funcs : List GoFuncDecl
deriving DecidableEq

/-- The per-directory slice of findGoHandlers (src/main.go lines 274-296):
each file is parsed independently; a file that fails to parse is skipped
silently (the walk callback returns nil), and a file that parses and
contains a function whose doc block mentions the method marker records the
directory as a handler package. -/
def findGoHandlersDir (dir : String) (files : List (ParseOutcome GoScanFile)) :
    List String :=
  files.filterMap
    (fun out =>
      match out with
      | .failed _ => none
      | .ok f =>
        if f.funcs.any (fun fn => fn.doc.any (fun c => goContains c "@Method")) then
          some dir
        else
          none)

/-- TypeRegistry (src/main.go lines 467-469): a map from type name to
TypeInfo, embedded as an association list with at most one binding per
name. -/
abbrev TypeRegistry := List (String × TypeInfo)

/-- TypeRegistry.AddType (src/main.go lines 471-473): Go map assignment
keyed by the type name. -/
def regAddType (reg : TypeRegistry) (t : TypeInfo) : TypeRegistry :=
  if reg.any (fun p => p.1 == t.name) then
    reg.map (fun p => if p.1 == t.name then (t.name, t) else p)
  else
    reg ++ [(t.name, t)]

/-- TypeRegistry.GetType (src/main.go lines 475-478). -/
def regGetType (reg : TypeRegistry) (name : String) : Option TypeInfo :=
  (reg.find? (fun p => p.1 == name)).map (·.2)

/-- parseExternalType (src/main.go lines 620-695) after the IO prelude:
packages.Load, the scope lookup of typeName, and the pkg.PkgPath prefix
test are abstracted into the isExternalPackage flag and, for the internal
case, into the given parseTypeObject outcome (internalResult).  The pure
remainder is transcribed: the mapping lookups consult the merged table and
then the defaults, keyed by the full qualified name, and with no entry the
explicit error is returned. -/
def parseExternalType (typeMappings : List (String × String))
    (typeName0 fullTypeName : String) (isExternalPackage : Bool)
    (internalResult : Except String TypeInfo) : Except String TypeInfo :=
  let typeName1 := goTrimPrefix typeName0 "*"
  let typeName := if goContains typeName1 " " then (goSplitOn typeName1 " ").headD "" else typeName1
  if isExternalPackage then
    match lookupList typeMappings fullTypeName with
    | some mappedType =>
      .ok { name := typeName, fullName := fullTypeName,
            fields := [{ packageName := fullTypeName, name := typeName, type := mappedType,
                         jsonName := typeName, isArray := false, isOptional := false }] }
    | none =>
      match lookupList defaultTypeMappings fullTypeName with
      | some mappedType =>
        .ok { name := typeName, fullName := fullTypeName,
              fields := [{ packageName := fullTypeName, name := typeName, type := mappedType,
                           jsonName := typeName, isArray := false, isOptional := false }] }
      | none => .error "no type mapping for external type"
  else internalResult

/-- The collaborators of resolveNestedAndExternalTypes: the import alias
table built in parsePackage, the module name from go list, and the two
package-loading resolvers (parseExternalType and parseInternalType), which
perform IO through packages.Load and are therefore oracles here.
extResolve receives the full package path, the type name, and the full
field type name, mirroring the arguments of parseExternalType; intResolve
receives the full package path and the type name, mirroring
parseInternalType. -/
structure ResolveEnv where
  importMap : List (String × String)
  moduleName : String
  extResolve : String → String → String → Except String TypeInfo
  intResolve : String → String → Except String TypeInfo

/-- The field loop of resolveNestedAndExternalTypes (src/main.go lines
562-618), embedded with fuel (one unit per recursive step; the Go
recursion carries no termination guard, so unbounded recursion shows up as
none for every fuel).  The result carries the rewritten field list, the
updated registry, and the trace of resolver invocations (full package
path, type name), one entry per call to parseExternalType or
parseInternalType, recording how often packages are loaded.  In Go the
field updates are visible to the registry through the shared backing
array of the stored slice; the embedding instead returns the updated
fields explicitly, and the registry entries the loop itself adds are
threaded exactly as in the source. -/
def resolveFields (env : ResolveEnv) : Nat → List FieldInfo → TypeRegistry →
    Option (List FieldInfo × TypeRegistry × List (String × String))
  | 0, _, _ => none
  | Nat.succ _, [], reg => some ([], reg, [])
  | Nat.succ n, field :: rest, reg =>
    if goContains field.packageName "." then
      let parts := goSplitOn field.packageName "."
      let packageName := parts.headD ""
      let typeName := parts.getD 1 ""
      match lookupList env.importMap packageName with
      | none =>
        (resolveFields env n rest reg).map (fun r => (field :: r.1, r.2))
      | some fullPackagePath =>
        if goHasPrefix fullPackagePath env.moduleName then
          match env.intResolve fullPackagePath typeName with
          | .error _ =>
            (resolveFields env n rest reg).map
              (fun r => (field :: r.1, r.2.1, (fullPackagePath, typeName) :: r.2.2))
          | .ok resolvedType =>
            let newTypeName0 := capitalizeFirst packageName ++ typeName
            let newTypeName := if field.isArray then "Array<" ++ newTypeName0 ++ ">" else newTypeName0
            let tName := (goSplitOn (goTrimSuffix (goTrimPrefix newTypeName "Array<") ">") " ").headD ""
            let reg1 := regAddType reg
              { name := tName, fullName := packageName, fields := resolvedType.fields }
            (resolveFields env n rest reg1).map
              (fun r => ({ field with type := newTypeName } :: r.1, r.2.1,
                         (fullPackagePath, typeName) :: r.2.2))
        else
          match env.extResolve fullPackagePath typeName field.packageName with
          | .error _ =>
            (resolveFields env n rest reg).map
              (fun r => (field :: r.1, r.2.1, (fullPackagePath, typeName) :: r.2.2))
          | .ok resolvedType =>
            match resolvedType.fields with
            | f0 :: _ =>
              (resolveFields env n rest reg).map
                (fun r => ({ field with type := f0.type } :: r.1, r.2.1,
                           (fullPackagePath, typeName) :: r.2.2))
            | [] => none
    else
      match regGetType reg ((goSplitOn field.packageName " ").headD "") with
      | some nestedType =>
        match resolveFields env n nestedType.fields reg with
        | none => none
        | some r1 =>
          let reg2 := regAddType r1.2.1 { nestedType with fields := r1.1 }
          (resolveFields env n rest reg2).map
            (fun r => (field :: r.1, r.2.1, r1.2.2 ++ r.2.2))
      | none => (resolveFields env n rest reg).map (fun r => (field :: r.1, r.2))

/-- resolveNestedAndExternalTypes (src/main.go lines 562-618) applied to
one type. -/
def resolveNestedAndExternalTypes (env : ResolveEnv) (fuel : Nat) (t : TypeInfo)
    (reg : TypeRegistry) : Option (TypeInfo × TypeRegistry × List (String × String)) :=
  (resolveFields env fuel t.fields reg).map (fun r => ({ t with fields := r.1 }, r.2))

/-- The name-normalization applied before every registry/name lookup in
the reachability filter and when registering resolved internal types
(src/main.go lines 607, 808, 812, 826): strip one Array< ... > wrapper and
keep the first space-separated word. -/
def stripArrayName (s : String) : String :=
  (goSplitOn (goTrimSuffix (goTrimPrefix s "Array<") ">") " ").headD ""

/-- The expansion step of filterUsedTypes (src/main.go lines 806-819): the
stripped field types of the FIRST type in allTypes whose stripped name
matches, or nothing when no type matches. -/
def typeTargets (allTypes : List TypeInfo) (typeName : String) : List String :=
  match allTypes.find? (fun t => stripArrayName t.name == typeName) with
  | some t => t.fields.map (fun f => stripArrayName f.type)
  | none => []

/-- The breadth-first loop of filterUsedTypes (src/main.go lines 799-821),
with fuel (one unit per dequeue): dequeue a name; if it is already in the
used set drop it, otherwise mark it used and enqueue the stripped field
types of its type that are not yet marked. -/
def bfsLoop (allTypes : List TypeInfo) : Nat → List String → List String →
    Option (List String)
  | _, [], visited => some visited
  | 0, _ :: _, _ => none
  | Nat.succ n, typeName :: rest, visited =>
    if visited.contains typeName then
      bfsLoop allTypes n rest visited
    else
      let visited1 := visited ++ [typeName]
      let enq := (typeTargets allTypes typeName).filter (fun ft => !visited1.contains ft)
      bfsLoop allTypes n (rest ++ enq) visited1

/-- The queue initialization of filterUsedTypes (src/main.go lines
789-796): the non-empty input and output type of each handler, in order. -/
def seedList (handlers : List HandlerInfo) : List String :=
  handlers.foldl
    (fun q h =>
      let q1 := if h.inputType ≠ "" then q ++ [h.inputType] else q
      if h.outputType ≠ "" then q1 ++ [h.outputType] else q1)
    []

/-- Every stripped field type of every registered type: the universe of
names the loop can ever enqueue after the seeds. -/
def allFieldStrips (allTypes : List TypeInfo) : List String :=
  (allTypes.map (fun t => t.fields.map (fun f => stripArrayName f.type))).flatten

/-- Total number of fields over all registered types; bounds how many
names one dequeue can enqueue. -/
def totalFieldCount (allTypes : List TypeInfo) : Nat :=
  (allTypes.map (fun t => t.fields.length)).sum

/-- A fuel budget sufficient for the loop to drain its queue (proved
below): every dequeue either marks one more name of the finite universe
used, or shrinks the queue. -/
def bfsFuel (allTypes : List TypeInfo) (handlers : List HandlerInfo) : Nat :=
  (seedList handlers ++ allFieldStrips allTypes).length * (1 + totalFieldCount allTypes) +
    (seedList handlers ++ allFieldStrips allTypes).length

/-- filterUsedTypes (src/main.go lines 784-833): run the breadth-first
marking from the handler seeds, then keep the types whose stripped name
was marked. -/
def filterUsedTypes (allTypes : List TypeInfo) (handlers : List HandlerInfo) :
    Option (List TypeInfo) :=
  (bfsLoop allTypes (bfsFuel allTypes handlers) (seedList handlers) []).map
    (fun visited => allTypes.filter (fun t => visited.contains (stripArrayName t.name)))

/-- Reachability over the field graph that filterUsedTypes walks: a name
is reachable when it is a seed or a stripped field type of a reachable
name (following the first-match expansion the code uses). -/
inductive Reaches (allTypes : List TypeInfo) (seeds : List String) : String → Prop
  | seed (s : String) : s ∈ seeds → Reaches allTypes seeds s
  | step (n m : String) : Reaches allTypes seeds n → m ∈ typeTargets allTypes n →
      Reaches allTypes seeds m

theorem lookupList_mapInsert (m : List (String × String)) (k v k' : String) :
    lookupList (mapInsert m k v) k' = if k' = k then some v else lookupList m k' := by
  unfold mapInsert lookupList
  by_cases hany : m.any (fun p => p.1 == k) = true
  · rw [if_pos hany, List.find?_map]
    by_cases h : k' = k
    · subst h
      have hpred : ((fun p : String × String => p.1 == k') ∘
          (fun p => if p.1 == k' then (k', v) else p)) = fun p => p.1 == k' := by
        funext q
        by_cases hq : q.1 = k' <;> simp [hq]
      rw [if_pos rfl, hpred]
      rcases hf : List.find? (fun p : String × String => p.1 == k') m with _ | q
      · rw [List.find?_eq_none] at hf
        rw [List.any_eq_true] at hany
        obtain ⟨x, hx, hpx⟩ := hany
        exact absurd hpx (hf x hx)
      · have hq : q.1 = k' := by simpa using List.find?_some hf
        simp [hq]
    · have hpred : ((fun p : String × String => p.1 == k') ∘
          (fun p => if p.1 == k then (k, v) else p)) = fun p => p.1 == k' := by
        funext q
        by_cases hq : q.1 = k <;> simp [hq]
      rw [if_neg h, hpred]
      rcases hf : List.find? (fun p : String × String => p.1 == k') m with _ | q
      · simp
      · have hq : q.1 = k' := by simpa using List.find?_some hf
        have hqk : ¬q.1 = k := by rw [hq]; exact h
        simp [hqk]
  · rw [if_neg hany, List.find?_append]
    by_cases h : k' = k
    · subst h
      have hnone : List.find? (fun p : String × String => p.1 == k') m = none := by
        rw [List.find?_eq_none]
        intro x hx hpx
        exact hany (List.any_eq_true.mpr ⟨x, hx, hpx⟩)
      simp [hnone, List.find?]
    · have hfk : ((k, v).1 == k') = false := by simp [Ne.symm h]
      simp [List.find?, hfk, h]

theorem lookupList_mapInsertList_not_mem (entries : List (String × String))
    (m : List (String × String)) (k : String) (h : ∀ e ∈ entries, e.1 ≠ k) :
    lookupList (mapInsertList m entries) k = lookupList m k := by
  induction entries generalizing m with
  | nil => rfl
  | cons e es ih =>
    have hstep : mapInsertList m (e :: es) = mapInsertList (mapInsert m e.1 e.2) es := rfl
    rw [hstep, ih _ (fun x hx => h x (List.mem_cons_of_mem _ hx)), lookupList_mapInsert,
      if_neg (Ne.symm (h e (List.mem_cons_self _ _)))]

theorem lookupList_mapInsertList_mem (entries : List (String × String))
    (m : List (String × String)) (k v : String)
    (hnd : (entries.map Prod.fst).Nodup) (hv : lookupList entries k = some v) :
    lookupList (mapInsertList m entries) k = some v := by
  induction entries generalizing m with
  | nil => simp [lookupList] at hv
  | cons e es ih =>
    have hstep : mapInsertList m (e :: es) = mapInsertList (mapInsert m e.1 e.2) es := rfl
    rw [hstep]
    rw [List.map_cons, List.nodup_cons] at hnd
    by_cases hek : e.1 = k
    · have hv2 : e.2 = v := by
        rw [lookupList, List.find?_cons_of_pos _ (by simp [hek])] at hv
        simpa using hv
      have hno : ∀ x ∈ es, x.1 ≠ k := by
        intro x hx hxk
        exact hnd.1 (by rw [hek, ← hxk]; exact List.mem_map_of_mem _ hx)
      rw [lookupList_mapInsertList_not_mem es _ k hno, lookupList_mapInsert,
        if_pos hek.symm, hv2]
    · have hv' : lookupList es k = some v := by
        rw [lookupList, List.find?_cons_of_neg _ (by simp [hek])] at hv
        exact hv
      exact ih _ hnd.2 hv'

/-- C2 counterexample: with date-object mode off and a user-supplied
mapping for time.Time, the merged table maps time.Time to the built-in
date sentinel, not to the user value, and with date-object mode on it maps
it to Date — the date-mode layer is applied after the user layer and wins,
contradicting the claim that the user value survives regardless of the
flag. -/
theorem buildTypeMappings_user_time_overridden :
    lookupList (buildTypeMappings [("time.Time", "MyTime")] false) "time.Time" =
      some "string /* date-time */" ∧
    lookupList (buildTypeMappings [("time.Time", "MyTime")] true) "time.Time" = some "Date" ∧
    lookupList (buildTypeMappings [("time.Time", "MyTime")] false) "time.Time" ≠
      some "MyTime" := by
  refine ⟨by decide, by decide, by decide⟩

/-- C2 (corrected): the merged table layers (1) built-in defaults, (2)
user-supplied custom mappings, (3) the date-mode override, with later
layers winning; hence a user-supplied value is final for every key except
time.Time (and pgtype.Timestamptz when date-object mode is on), and
time.Time always ends at the date-mode value. -/
theorem buildTypeMappings_layering
    (custom : List (String × String)) (useDateObject : Bool) (k v : String)
    (hnd : (custom.map Prod.fst).Nodup)
    (hv : lookupList custom k = some v)
    (hk1 : k ≠ "time.Time")
    (hk2 : useDateObject = true → k ≠ "pgtype.Timestamptz") :
    lookupList (buildTypeMappings custom useDateObject) k = some v ∧
    lookupList (buildTypeMappings custom useDateObject) "time.Time" =
      some (if useDateObject then "Date" else "string /* date-time */") := by
  cases useDateObject with
  | false =>
    constructor
    · simp only [buildTypeMappings, if_neg Bool.false_ne_true]
      rw [lookupList_mapInsert, if_neg hk1]
      exact lookupList_mapInsertList_mem custom _ k v hnd hv
    · simp only [buildTypeMappings, if_neg Bool.false_ne_true]
      rw [lookupList_mapInsert, if_pos rfl]
  | true =>
    constructor
    · simp only [buildTypeMappings, eq_self_iff_true, if_true]
      rw [lookupList_mapInsert, if_neg (hk2 rfl), lookupList_mapInsert, if_neg hk1]
      exact lookupList_mapInsertList_mem custom _ k v hnd hv
    · simp only [buildTypeMappings, eq_self_iff_true, if_true]
      rw [lookupList_mapInsert,
        if_neg (show ("time.Time" : String) ≠ "pgtype.Timestamptz" by decide),
        lookupList_mapInsert, if_pos rfl]

theorem buildTypeMappings_layering_witness :
    ([("uuid.UUID", "string")].map Prod.fst).Nodup ∧
    lookupList [("uuid.UUID", "string")] "uuid.UUID" = some "string" ∧
    ("uuid.UUID" : String) ≠ "time.Time" ∧
    ((false : Bool) = true → ("uuid.UUID" : String) ≠ "pgtype.Timestamptz") ∧
    (lookupList (buildTypeMappings [("uuid.UUID", "string")] false) "uuid.UUID" = some "string" ∧
     lookupList (buildTypeMappings [("uuid.UUID", "string")] false) "time.Time" =
       some (if (false : Bool) then "Date" else "string /* date-time */")) :=
  ⟨by decide, by decide, by decide, by decide,
   buildTypeMappings_layering [("uuid.UUID", "string")] false "uuid.UUID" "string"
     (by decide) (by decide) (by decide) (by decide)⟩

/-- C3 counterexample: a directory with one parseable file and one
unparseable file makes parsePackage fail outright with the propagated
parser.ParseDir error, instead of succeeding on the files that parsed. -/
theorem parsePackage_fails_on_bad_file :
    parsePackageParse
      [("api.go", ParseOutcome.ok (GoScanFile.mk [⟨"GetUserHandler", ["// @Method GET"]⟩])),
       ("broken.go", ParseOutcome.failed "expected declaration, found broken")]
      (fun asts => asts.length) =
      Except.error "error parsing directory: expected declaration, found broken" := rfl

/-- C3 (corrected): the init-time scanner findGoHandlers skips an
unparseable file silently (removing a failed file from the walk changes
nothing), but parsePackage propagates the first parser.ParseDir error and
fails the whole package whenever any file in the directory fails to
parse. -/
theorem parse_failure_package_vs_scanner {α β : Type}
    (files : List (String × ParseOutcome α)) (rest : List α → β)
    (asts : List α) (e : String)
    (h : goParseDir files = (asts, some e))
    (dir : String) (fs1 fs2 : List (ParseOutcome GoScanFile)) (msg : String) :
    parsePackageParse files rest = .error ("error parsing directory: " ++ e) ∧
    findGoHandlersDir dir (fs1 ++ ParseOutcome.failed msg :: fs2) =
      findGoHandlersDir dir (fs1 ++ fs2) := by
  constructor
  · simp [parsePackageParse, h]
  · simp [findGoHandlersDir, List.filterMap_append, List.filterMap_cons]

theorem parse_failure_package_vs_scanner_witness :
    goParseDir [("broken.go", (ParseOutcome.failed "syntax error" : ParseOutcome GoScanFile))] =
      ([], some "syntax error") ∧
    (parsePackageParse
        [("broken.go", (ParseOutcome.failed "syntax error" : ParseOutcome GoScanFile))]
        (fun asts => asts.length) =
        .error ("error parsing directory: " ++ "syntax error") ∧
     findGoHandlersDir "/srv"
        ([ParseOutcome.ok (GoScanFile.mk [⟨"GetUserHandler", ["// @Method GET"]⟩])] ++
          ParseOutcome.failed "syntax error" :: []) =
       findGoHandlersDir "/srv"
        ([ParseOutcome.ok (GoScanFile.mk [⟨"GetUserHandler", ["// @Method GET"]⟩])] ++ [])) :=
  ⟨by decide,
   parse_failure_package_vs_scanner
     [("broken.go", (ParseOutcome.failed "syntax error" : ParseOutcome GoScanFile))]
     (fun asts => asts.length) [] "syntax error" (by decide) "/srv"
     [ParseOutcome.ok (GoScanFile.mk [⟨"GetUserHandler", ["// @Method GET"]⟩])] [] "syntax error"⟩

/-- C4 (confirmed): for a field whose dotted type resolves to an external
package, parseExternalType returns the explicit no-mapping error when
neither the merged table nor the defaults hold the full qualified name,
and the resolution pass then leaves the field untouched; when the table
does hold the name, the resolved field type is exactly the mapped
string. -/
theorem external_type_mapping_required
    (tm1 : List (String × String)) (ty1 : String) (f1 : FieldInfo)
    (alias1 path1 mod1 : String) (im1 : List (String × String))
    (ir1 : Except String TypeInfo) (intr1 : String → String → Except String TypeInfo)
    (reg1 : TypeRegistry) (n1 : Nat)
    (hc1 : goContains f1.packageName "." = true)
    (hs1 : goSplitOn f1.packageName "." = [alias1, ty1])
    (him1 : lookupList im1 alias1 = some path1)
    (hx1 : goHasPrefix path1 mod1 = false)
    (hm1 : lookupList tm1 f1.packageName = none)
    (hd1 : lookupList defaultTypeMappings f1.packageName = none)
    (tm2 : List (String × String)) (ty2 mapped2 : String) (f2 : FieldInfo)
    (alias2 path2 mod2 : String) (im2 : List (String × String))
    (ir2 : Except String TypeInfo) (intr2 : String → String → Except String TypeInfo)
    (reg2 : TypeRegistry) (n2 : Nat)
    (hc2 : goContains f2.packageName "." = true)
    (hs2 : goSplitOn f2.packageName "." = [alias2, ty2])
    (him2 : lookupList im2 alias2 = some path2)
    (hx2 : goHasPrefix path2 mod2 = false)
    (hm2 : lookupList tm2 f2.packageName = some mapped2) :
    (parseExternalType tm1 ty1 f1.packageName true ir1 =
        .error "no type mapping for external type" ∧
     resolveFields ⟨im1, mod1, fun _ tn ftn => parseExternalType tm1 tn ftn true ir1, intr1⟩
        (n1 + 2) [f1] reg1 = some ([f1], reg1, [(path1, ty1)])) ∧
    ((parseExternalType tm2 ty2 f2.packageName true ir2).map
        (fun rt => rt.fields.map (fun fd => fd.type)) = .ok [mapped2] ∧
     resolveFields ⟨im2, mod2, fun _ tn ftn => parseExternalType tm2 tn ftn true ir2, intr2⟩
        (n2 + 2) [f2] reg2 = some ([{ f2 with type := mapped2 }], reg2, [(path2, ty2)])) := by
  refine ⟨⟨?_, ?_⟩, ⟨?_, ?_⟩⟩
  · simp [parseExternalType, hm1, hd1]
  · simp [resolveFields, hc1, hs1, him1, hx1, parseExternalType, hm1, hd1]
  · simp [parseExternalType, hm2, Except.map]
  · simp [resolveFields, hc2, hs2, him2, hx2, parseExternalType, hm2]

theorem external_type_mapping_required_witness :
    goContains "foo.Bar" "." = true ∧
    goSplitOn "foo.Bar" "." = ["foo", "Bar"] ∧
    lookupList [("foo", "github.com/x/foo")] "foo" = some "github.com/x/foo" ∧
    goHasPrefix "github.com/x/foo" "example.com/mod" = false ∧
    lookupList [] "foo.Bar" = none ∧
    lookupList defaultTypeMappings "foo.Bar" = none ∧
    lookupList [("uuid.UUID", "string")] "uuid.UUID" = some "string" ∧
    parseExternalType [] "Bar" "foo.Bar" true (.error "na") =
      .error "no type mapping for external type" ∧
    resolveFields
        ⟨[("foo", "github.com/x/foo")], "example.com/mod",
         fun _ tn ftn => parseExternalType [] tn ftn true (.error "na"),
         fun _ _ => .error "na"⟩ 2
        [{ packageName := "foo.Bar", name := "b", type := "foo.Bar", jsonName := "b",
           isArray := false, isOptional := false }] [] =
      some ([{ packageName := "foo.Bar", name := "b", type := "foo.Bar", jsonName := "b",
               isArray := false, isOptional := false }], [], [("github.com/x/foo", "Bar")]) ∧
    resolveFields
        ⟨[("uuid", "github.com/google/uuid")], "example.com/mod",
         fun _ tn ftn => parseExternalType [("uuid.UUID", "string")] tn ftn true (.error "na"),
         fun _ _ => .error "na"⟩ 2
        [{ packageName := "uuid.UUID", name := "id", type := "uuid.UUID", jsonName := "id",
           isArray := false, isOptional := false }] [] =
      some ([{ packageName := "uuid.UUID", name := "id", type := "string", jsonName := "id",
               isArray := false, isOptional := false }], [], [("github.com/google/uuid", "UUID")]) := by
  have h := external_type_mapping_required
    [] "Bar"
    { packageName := "foo.Bar", name := "b", type := "foo.Bar", jsonName := "b",
      isArray := false, isOptional := false }
    "foo" "github.com/x/foo" "example.com/mod" [("foo", "github.com/x/foo")]
    (.error "na") (fun _ _ => .error "na") [] 0
    (by decide) (by decide) (by decide) (by decide) (by decide) (by decide)
    [("uuid.UUID", "string")] "UUID" "string"
    { packageName := "uuid.UUID", name := "id", type := "uuid.UUID", jsonName := "id",
      isArray := false, isOptional := false }
    "uuid" "github.com/google/uuid" "example.com/mod" [("uuid", "github.com/google/uuid")]
    (.error "na") (fun _ _ => .error "na") [] 0
    (by decide) (by decide) (by decide) (by decide) (by decide)
  exact ⟨by decide, by decide, by decide, by decide, by decide, by decide, by decide,
    h.1.1, h.1.2, h.2.2⟩

/-- C8 counterexample: on the static-type path a slice field comes out
with isArray unset (false) and isOptional set (true): parseTypeObject
stores the boolean returned by parseFieldTypeFromTypes as IsOptional and
never sets IsArray. -/
theorem parseTypeObject_slice_flags :
    parseTypeObject "ComplexUser"
      (GoUnderlying.structType
        [⟨"Tags", GoStaticType.slice (GoStaticType.basic "string"), "tags"⟩]) [] =
      Except.ok { name := "ComplexUser", fullName := "ComplexUser",
                  fields := [{ packageName := "string", name := "tags",
                               type := "Array<string>", jsonName := "tags",
                               isArray := false, isOptional := true }] } := rfl

/-- C8 (corrected): on the syntactic path a slice field resolves with
isArray=true, isOptional=false and resolved string Array of the element
resolution; on the static-type path the resolved string is also an Array
form, but parseFieldTypeFromTypes returns true in the single boolean its
callers consume as isOptional, and the descriptor parseTypeObject builds
has isArray=false and isOptional=true. -/
theorem slice_resolution_paths
    (name fieldName tag : String) (elt : GoExpr) (m : List (String × String))
    (objName fieldName2 tag2 : String) (st : GoStaticType) (m2 : List (String × String)) :
    (parseType name [⟨[fieldName], GoExpr.array elt, tag⟩] m).fields =
      [{ packageName := (parseFieldType elt m).2.1,
         name := if tag ≠ "" then tag else fieldName,
         type := "Array<" ++ (parseFieldType elt m).1 ++ ">",
         jsonName := tag, isArray := true, isOptional := false }] ∧
    parseFieldTypeFromTypes (GoStaticType.slice st) m2 =
      ("Array<" ++ (parseFieldTypeFromTypes st m2).1 ++ ">",
       (parseFieldTypeFromTypes st m2).2.1, true) ∧
    (parseTypeObject objName
        (GoUnderlying.structType [⟨fieldName2, GoStaticType.slice st, tag2⟩]) m2).map
        (fun ti => ti.fields.map (fun fd => (fd.type, fd.isArray, fd.isOptional))) =
      .ok [("Array<" ++ (parseFieldTypeFromTypes st m2).1 ++ ">", false, true)] := by
  refine ⟨?_, ?_, ?_⟩ <;> rfl

/-- C9 (confirmed): parseHeaderDirective realizes the case split of the
spec exactly — 3 parts take the explicit storage key, 2 parts default the
storage key to the header key unless the source is input, anything else
falls back to source input with the raw text as header key — and the
concrete directives of the spec produce the stated records. -/
theorem parseHeaderDirective_case_split :
    (∀ d, parseHeaderDirective d = headerDirectiveSpec d) ∧
    parseHeaderDirective "localStorage:X-Auth-Token:auth_token" =
      { headerKey := "X-Auth-Token", safeName := "x_auth_token",
        source := "localStorage", storageKey := "auth_token" } ∧
    parseHeaderDirective "input:Content-Type" =
      { headerKey := "Content-Type", safeName := "content_type",
        source := "input", storageKey := "" } ∧
    parseHeaderDirective "X-Custom" =
      { headerKey := "X-Custom", safeName := "x_custom",
        source := "input", storageKey := "" } ∧
    parseHeaderDirective "sessionStorage:X-Session" =
      { headerKey := "X-Session", safeName := "x_session",
        source := "sessionStorage", storageKey := "X-Session" } := by
  refine ⟨fun d => ?_, by decide, by decide, by decide, by decide⟩
  unfold parseHeaderDirective headerDirectiveSpec
  cases h : goSplitOn d ":" with
  | nil => rfl
  | cons p0 tl =>
    cases tl with
    | nil => rfl
    | cons p1 tl2 =>
      cases tl2 with
      | nil => by_cases hp : p0 = "input" <;> simp [hp]
      | cons p2 tl3 =>
        cases tl3 with
        | nil => rfl
        | cons p3 tl4 => rfl

/-- C10 (confirmed): formatHookName is partial at the public interface —
a name whose Handler-stripped stem is non-empty yields the stem with its
first letter capitalized, but the stem of the name Handler is empty, the
rune indexing has no defined result, and a handler-annotated function
named Handler makes parseHandlerComments crash instead of producing a
descriptor. -/
theorem formatHookName_partiality
    (name : String) (c : Char) (cs : List Char)
    (h : (goTrimSuffix name "Handler").data = c :: cs) :
    formatHookName name = some ⟨asciiToUpper c :: cs⟩ ∧
    formatHookName "Handler" = none ∧
    parseHandlerComments "Handler" ["// @Method GET", "// @Path /users/:id"] =
      .error "runtime error: index out of range [0] with length 0" := by
  refine ⟨?_, rfl, rfl⟩
  simp only [formatHookName, h]

theorem formatHookName_partiality_witness :
    (goTrimSuffix "GetUserHandler" "Handler").data = 'G' :: "etUser".data ∧
    (formatHookName "GetUserHandler" = some ⟨asciiToUpper 'G' :: "etUser".data⟩ ∧
     formatHookName "Handler" = none ∧
     parseHandlerComments "Handler" ["// @Method GET", "// @Path /users/:id"] =
       .error "runtime error: index out of range [0] with length 0") :=
  ⟨by decide, formatHookName_partiality "GetUserHandler" 'G' "etUser".data (by decide)⟩

theorem regGetType_regAddType (reg : TypeRegistry) (t : TypeInfo) (k : String) :
    regGetType (regAddType reg t) k = if k = t.name then some t else regGetType reg k := by
  unfold regAddType regGetType
  by_cases hany : reg.any (fun p => p.1 == t.name) = true
  · rw [if_pos hany, List.find?_map]
    by_cases h : k = t.name
    · subst h
      have hpred : ((fun p : String × TypeInfo => p.1 == t.name) ∘
          (fun p => if p.1 == t.name then (t.name, t) else p)) = fun p => p.1 == t.name := by
        funext q
        by_cases hq : q.1 = t.name <;> simp [hq]
      rw [if_pos rfl, hpred]
      rcases hf : List.find? (fun p : String × TypeInfo => p.1 == t.name) reg with _ | q
      · rw [List.find?_eq_none] at hf
        rw [List.any_eq_true] at hany
        obtain ⟨x, hx, hpx⟩ := hany
        exact absurd hpx (hf x hx)
      · have hq : q.1 = t.name := by simpa using List.find?_some hf
        simp [hq]
    · have hpred : ((fun p : String × TypeInfo => p.1 == k) ∘
          (fun p => if p.1 == t.name then (t.name, t) else p)) = fun p => p.1 == k := by
        funext q
        by_cases hq : q.1 = t.name <;> simp [hq, Ne.symm h]
      rw [if_neg h, hpred]
      rcases hf : List.find? (fun p : String × TypeInfo => p.1 == k) reg with _ | q
      · simp
      · have hq : q.1 = k := by simpa using List.find?_some hf
        have hqk : ¬q.1 = t.name := by rw [hq]; exact h
        simp [hqk]
  · rw [if_neg hany, List.find?_append]
    by_cases h : k = t.name
    · subst h
      have hnone : List.find? (fun p : String × TypeInfo => p.1 == t.name) reg = none := by
        rw [List.find?_eq_none]
        intro x hx hpx
        exact hany (List.any_eq_true.mpr ⟨x, hx, hpx⟩)
      simp [hnone, List.find?]
    · have hfk : ((t.name, t).1 == k) = false := by simp [Ne.symm h]
      simp [List.find?, hfk, h]

theorem regAddType_idem (reg : TypeRegistry) (t : TypeInfo) :
    regAddType (regAddType reg t) t = regAddType reg t := by
  unfold regAddType
  by_cases hany : reg.any (fun p => p.1 == t.name) = true
  · rw [if_pos hany]
    have hany2 : (reg.map (fun p => if p.1 == t.name then (t.name, t) else p)).any
        (fun p => p.1 == t.name) = true := by
      rw [List.any_eq_true] at hany ⊢
      obtain ⟨x, hx, hpx⟩ := hany
      exact ⟨(t.name, t), by
        refine List.mem_map.mpr ⟨x, hx, ?_⟩
        simp [hpx], by simp⟩
    rw [if_pos hany2, List.map_map]
    refine List.map_congr_left (fun q _ => ?_)
    by_cases hq : q.1 = t.name <;> simp [Function.comp, hq]
  · rw [if_neg hany]
    have hany2 : (reg ++ [(t.name, t)]).any (fun p => p.1 == t.name) = true := by
      rw [List.any_eq_true]
      exact ⟨(t.name, t), List.mem_append_right _ (List.mem_singleton_self _), by simp⟩
    rw [if_pos hany2, List.map_append]
    have hreg : reg.map (fun p => if p.1 == t.name then (t.name, t) else p) = reg := by
      conv_rhs => rw [← List.map_id reg]
      refine List.map_congr_left (fun q hq => ?_)
      have hqf : ¬(q.1 == t.name) = true := by
        intro hqt
        exact hany (List.any_eq_true.mpr ⟨q, hq, hqt⟩)
      simp [hqf]
    rw [hreg]
    simp

theorem regAddType_keys_nodup (reg : TypeRegistry) (t : TypeInfo)
    (h : (reg.map Prod.fst).Nodup) : ((regAddType reg t).map Prod.fst).Nodup := by
  unfold regAddType
  by_cases hany : reg.any (fun p => p.1 == t.name) = true
  · rw [if_pos hany, List.map_map]
    have hfst : (Prod.fst ∘ fun p : String × TypeInfo =>
        if p.1 == t.name then (t.name, t) else p) = Prod.fst := by
      funext q
      by_cases hq : q.1 = t.name <;> simp [hq]
    rw [hfst]
    exact h
  · rw [if_neg hany, List.map_append]
    rw [List.nodup_append]
    refine ⟨h, List.nodup_singleton _, ?_⟩
    intro a ha hb
    simp only [List.map_cons, List.map_nil, List.mem_singleton] at hb
    subst hb
    obtain ⟨q, hq, hq1⟩ := List.mem_map.mp ha
    exact hany (List.any_eq_true.mpr ⟨q, hq, by simp [hq1]⟩)

/-- C5 counterexample: two fields referencing the same qualified internal
type alpha.Info leave a single AlphaInfo registry entry, but the internal
package loader is invoked twice (the load trace has two entries) — the
per-qualified-name resolution is re-executed per referencing field, not
memoized. -/
theorem internal_resolution_not_memoized :
    resolveFields
      ⟨[("alpha", "example.com/mod/alpha")], "example.com/mod",
       fun _ _ _ => .error "na",
       fun _ _ => .ok { name := "Info", fullName := "Info",
                        fields := [{ packageName := "string", name := "email",
                                     type := "string", jsonName := "email",
                                     isArray := false, isOptional := false }] }⟩ 3
      [{ packageName := "alpha.Info", name := "info", type := "alpha.Info",
         jsonName := "info", isArray := false, isOptional := false },
       { packageName := "alpha.Info", name := "info2", type := "alpha.Info",
         jsonName := "info2", isArray := false, isOptional := false }] [] =
      some ([{ packageName := "alpha.Info", name := "info", type := "AlphaInfo",
               jsonName := "info", isArray := false, isOptional := false },
             { packageName := "alpha.Info", name := "info2", type := "AlphaInfo",
               jsonName := "info2", isArray := false, isOptional := false }],
            [("AlphaInfo",
              { name := "AlphaInfo", fullName := "alpha",
                fields := [{ packageName := "string", name := "email", type := "string",
                             jsonName := "email", isArray := false, isOptional := false }] })],
            [("example.com/mod/alpha", "Info"), ("example.com/mod/alpha", "Info")]) := by
  decide

/-- C5 (corrected): duplicate references to one qualified internal name
yield exactly one registry entry — the second AddType overwrites the first
under the same key, so the registry equals a single insertion — but the
resolution is not memoized: the internal loader runs once per referencing
field occurrence (the load trace records the load twice). -/
theorem duplicate_reference_single_entry
    (pkgA ty path mod : String) (res : TypeInfo) (reg : TypeRegistry)
    (f1 f2 : FieldInfo) (im : List (String × String))
    (er : String → String → String → Except String TypeInfo)
    (ir : String → String → Except String TypeInfo) (n : Nat)
    (hc1 : goContains f1.packageName "." = true)
    (hs1 : goSplitOn f1.packageName "." = [pkgA, ty])
    (hc2 : goContains f2.packageName "." = true)
    (hs2 : goSplitOn f2.packageName "." = [pkgA, ty])
    (ha1 : f1.isArray = false) (ha2 : f2.isArray = false)
    (him : lookupList im pkgA = some path)
    (hint : goHasPrefix path mod = true)
    (hres : ir path ty = .ok res) :
    resolveFields ⟨im, mod, er, ir⟩ (n + 3) [f1, f2] reg =
      some ([{ f1 with type := capitalizeFirst pkgA ++ ty },
             { f2 with type := capitalizeFirst pkgA ++ ty }],
            regAddType reg
              { name := stripArrayName (capitalizeFirst pkgA ++ ty),
                fullName := pkgA, fields := res.fields },
            [(path, ty), (path, ty)]) := by
  have hidem := regAddType_idem reg
    { name := stripArrayName (capitalizeFirst pkgA ++ ty),
      fullName := pkgA, fields := res.fields }
  simp [resolveFields, hc1, hs1, hc2, hs2, ha1, ha2, him, hint, hres,
    stripArrayName] at hidem ⊢
  exact hidem

theorem duplicate_reference_single_entry_witness :
    goContains "beta.Item" "." = true ∧
    goSplitOn "beta.Item" "." = ["beta", "Item"] ∧
    lookupList [("beta", "example.com/mod/beta")] "beta" = some "example.com/mod/beta" ∧
    goHasPrefix "example.com/mod/beta" "example.com/mod" = true ∧
    resolveFields
      ⟨[("beta", "example.com/mod/beta")], "example.com/mod",
       fun _ _ _ => .error "na",
       fun _ _ => .ok { name := "Item", fullName := "Item", fields := [] }⟩ 3
      [{ packageName := "beta.Item", name := "a", type := "beta.Item",
         jsonName := "a", isArray := false, isOptional := false },
       { packageName := "beta.Item", name := "b", type := "beta.Item",
         jsonName := "b", isArray := false, isOptional := false }] [] =
      some ([{ packageName := "beta.Item", name := "a", type := capitalizeFirst "beta" ++ "Item",
               jsonName := "a", isArray := false, isOptional := false },
             { packageName := "beta.Item", name := "b", type := capitalizeFirst "beta" ++ "Item",
               jsonName := "b", isArray := false, isOptional := false }],
            regAddType []
              { name := stripArrayName (capitalizeFirst "beta" ++ "Item"),
                fullName := "beta", fields := [] },
            [("example.com/mod/beta", "Item"), ("example.com/mod/beta", "Item")]) :=
  ⟨by decide, by decide, by decide, by decide,
   duplicate_reference_single_entry "beta" "Item" "example.com/mod/beta" "example.com/mod"
     { name := "Item", fullName := "Item", fields := [] } []
     { packageName := "beta.Item", name := "a", type := "beta.Item",
       jsonName := "a", isArray := false, isOptional := false }
     { packageName := "beta.Item", name := "b", type := "beta.Item",
       jsonName := "b", isArray := false, isOptional := false }
     [("beta", "example.com/mod/beta")]
     (fun _ _ _ => .error "na")
     (fun _ _ => .ok { name := "Item", fullName := "Item", fields := [] }) 0
     (by decide) (by decide) (by decide) (by decide) rfl rfl (by decide) (by decide) rfl⟩

/-- C6 counterexample: the distinct packages foo and Foo (both internal,
both defining a type Info referenced from the scanned package) capitalize
to the same disambiguated name FooInfo, so the second registration
overwrites the first and the registry holds one entry, not two distinct
entries. -/
theorem capitalized_collision_single_entry :
    resolveFields
      ⟨[("foo", "example.com/mod/foo"), ("Foo", "example.com/mod/Foo")], "example.com/mod",
       fun _ _ _ => .error "na",
       fun p _ =>
         if p == "example.com/mod/foo" then
           .ok { name := "Info", fullName := "Info",
                 fields := [{ packageName := "int", name := "x", type := "number",
                              jsonName := "x", isArray := false, isOptional := false }] }
         else
           .ok { name := "Info", fullName := "Info",
                 fields := [{ packageName := "string", name := "y", type := "string",
                              jsonName := "y", isArray := false, isOptional := false }] }⟩ 3
      [{ packageName := "foo.Info", name := "lo", type := "foo.Info",
         jsonName := "lo", isArray := false, isOptional := false },
       { packageName := "Foo.Info", name := "hi", type := "Foo.Info",
         jsonName := "hi", isArray := false, isOptional := false }] [] =
      some ([{ packageName := "foo.Info", name := "lo", type := "FooInfo",
               jsonName := "lo", isArray := false, isOptional := false },
             { packageName := "Foo.Info", name := "hi", type := "FooInfo",
               jsonName := "hi", isArray := false, isOptional := false }],
            [("FooInfo",
              { name := "FooInfo", fullName := "Foo",
                fields := [{ packageName := "string", name := "y", type := "string",
                             jsonName := "y", isArray := false, isOptional := false }] })],
            [("example.com/mod/foo", "Info"), ("example.com/mod/Foo", "Info")]) := by
  decide

/-- C6 (corrected): whenever the capitalized package names differ (as with
alpha and beta), resolving two same-named internal types from two packages
registers two distinct entries named by the capitalized package name
concatenated with the type name, they are retrievable separately, and the
registry keys stay unique; when the capitalized names coincide (foo and
Foo) the later write wins and only one entry remains. -/
theorem distinct_package_disambiguation
    (a1 a2 ty path1 path2 mod : String) (res1 res2 : TypeInfo)
    (f1 f2 : FieldInfo) (im : List (String × String))
    (er : String → String → String → Except String TypeInfo)
    (ir : String → String → Except String TypeInfo) (reg : TypeRegistry) (n : Nat)
    (hc1 : goContains f1.packageName "." = true)
    (hs1 : goSplitOn f1.packageName "." = [a1, ty])
    (hc2 : goContains f2.packageName "." = true)
    (hs2 : goSplitOn f2.packageName "." = [a2, ty])
    (ha1 : f1.isArray = false) (ha2 : f2.isArray = false)
    (him1 : lookupList im a1 = some path1)
    (him2 : lookupList im a2 = some path2)
    (hint1 : goHasPrefix path1 mod = true)
    (hint2 : goHasPrefix path2 mod = true)
    (hres1 : ir path1 ty = .ok res1)
    (hres2 : ir path2 ty = .ok res2)
    (hnd : (reg.map Prod.fst).Nodup)
    (hne : stripArrayName (capitalizeFirst a1 ++ ty) ≠
      stripArrayName (capitalizeFirst a2 ++ ty)) :
    resolveFields ⟨im, mod, er, ir⟩ (n + 3) [f1, f2] reg =
      some ([{ f1 with type := capitalizeFirst a1 ++ ty },
             { f2 with type := capitalizeFirst a2 ++ ty }],
            regAddType
              (regAddType reg
                { name := stripArrayName (capitalizeFirst a1 ++ ty),
                  fullName := a1, fields := res1.fields })
              { name := stripArrayName (capitalizeFirst a2 ++ ty),
                fullName := a2, fields := res2.fields },
            [(path1, ty), (path2, ty)]) ∧
    regGetType
        (regAddType
          (regAddType reg
            { name := stripArrayName (capitalizeFirst a1 ++ ty),
              fullName := a1, fields := res1.fields })
          { name := stripArrayName (capitalizeFirst a2 ++ ty),
            fullName := a2, fields := res2.fields })
        (stripArrayName (capitalizeFirst a1 ++ ty)) =
      some { name := stripArrayName (capitalizeFirst a1 ++ ty),
             fullName := a1, fields := res1.fields } ∧
    regGetType
        (regAddType
          (regAddType reg
            { name := stripArrayName (capitalizeFirst a1 ++ ty),
              fullName := a1, fields := res1.fields })
          { name := stripArrayName (capitalizeFirst a2 ++ ty),
            fullName := a2, fields := res2.fields })
        (stripArrayName (capitalizeFirst a2 ++ ty)) =
      some { name := stripArrayName (capitalizeFirst a2 ++ ty),
             fullName := a2, fields := res2.fields } ∧
    ((regAddType
        (regAddType reg
          { name := stripArrayName (capitalizeFirst a1 ++ ty),
            fullName := a1, fields := res1.fields })
        { name := stripArrayName (capitalizeFirst a2 ++ ty),
          fullName := a2, fields := res2.fields }).map Prod.fst).Nodup := by
  refine ⟨?_, ?_, ?_, ?_⟩
  · simp [resolveFields, hc1, hs1, hc2, hs2, ha1, ha2, him1, him2, hint1, hint2,
      hres1, hres2, stripArrayName]
  · rw [regGetType_regAddType, if_neg hne, regGetType_regAddType, if_pos rfl]
  · rw [regGetType_regAddType, if_pos rfl]
  · exact regAddType_keys_nodup _ _ (regAddType_keys_nodup _ _ hnd)

theorem distinct_package_disambiguation_witness :
    stripArrayName (capitalizeFirst "alpha" ++ "Info") ≠
      stripArrayName (capitalizeFirst "beta" ++ "Info") ∧
    regGetType
        (regAddType
          (regAddType []
            { name := "AlphaInfo", fullName := "alpha",
              fields := [{ packageName := "int", name := "x", type := "number",
                           jsonName := "x", isArray := false, isOptional := false }] })
          { name := "BetaInfo", fullName := "beta",
            fields := [{ packageName := "string", name := "y", type := "string",
                         jsonName := "y", isArray := false, isOptional := false }] })
        "AlphaInfo" =
      some { name := "AlphaInfo", fullName := "alpha",
             fields := [{ packageName := "int", name := "x", type := "number",
                          jsonName := "x", isArray := false, isOptional := false }] } ∧
    regGetType
        (regAddType
          (regAddType []
            { name := "AlphaInfo", fullName := "alpha",
              fields := [{ packageName := "int", name := "x", type := "number",
                           jsonName := "x", isArray := false, isOptional := false }] })
          { name := "BetaInfo", fullName := "beta",
            fields := [{ packageName := "string", name := "y", type := "string",
                         jsonName := "y", isArray := false, isOptional := false }] })
        "BetaInfo" =
      some { name := "BetaInfo", fullName := "beta",
             fields := [{ packageName := "string", name := "y", type := "string",
                          jsonName := "y", isArray := false, isOptional := false }] } ∧
    ((regAddType
        (regAddType []
          { name := "AlphaInfo", fullName := "alpha",
            fields := [{ packageName := "int", name := "x", type := "number",
                         jsonName := "x", isArray := false, isOptional := false }] })
        { name := "BetaInfo", fullName := "beta",
          fields := [{ packageName := "string", name := "y", type := "string",
                       jsonName := "y", isArray := false, isOptional := false }] }).map
      Prod.fst).Nodup := by
  have h := distinct_package_disambiguation "alpha" "beta" "Info"
    "example.com/mod/alpha" "example.com/mod/beta" "example.com/mod"
    { name := "Info", fullName := "Info",
      fields := [{ packageName := "int", name := "x", type := "number",
                   jsonName := "x", isArray := false, isOptional := false }] }
    { name := "Info", fullName := "Info",
      fields := [{ packageName := "string", name := "y", type := "string",
                   jsonName := "y", isArray := false, isOptional := false }] }
    { packageName := "alpha.Info", name := "lo", type := "alpha.Info",
      jsonName := "lo", isArray := false, isOptional := false }
    { packageName := "beta.Info", name := "hi", type := "beta.Info",
      jsonName := "hi", isArray := false, isOptional := false }
    [("alpha", "example.com/mod/alpha"), ("beta", "example.com/mod/beta")]
    (fun _ _ _ => .error "na")
    (fun p _ =>
      if p == "example.com/mod/alpha" then
        .ok { name := "Info", fullName := "Info",
              fields := [{ packageName := "int", name := "x", type := "number",
                           jsonName := "x", isArray := false, isOptional := false }] }
      else
        .ok { name := "Info", fullName := "Info",
              fields := [{ packageName := "string", name := "y", type := "string",
                           jsonName := "y", isArray := false, isOptional := false }] })
    [] 0
    (by decide) (by decide) (by decide) (by decide) rfl rfl (by decide) (by decide)
    (by decide) (by decide) rfl rfl (by decide) (by decide)
  exact ⟨by decide, h.2.1, h.2.2.1, h.2.2.2⟩

/-- C1: for the same-package cycle A (field Next *B) and B (field Prev *A),
scanned into the registry exactly as parsePackage builds it, the
resolution pass diverges — resolveNestedAndExternalTypes recurses into the
nested type with no visited guard, so for every fuel bound the embedded
run exhausts its fuel (the Go recursion never terminates), on A and on B
alike; the pass never completes, so the claimed final registry state is
never reached. -/
theorem cyclic_nested_resolution_diverges :
    ∀ fuel : Nat,
      resolveNestedAndExternalTypes
        ⟨[], "example.com/mod", fun _ _ _ => .error "na", fun _ _ => .error "na"⟩ fuel
        (parseType "A" [⟨["Next"], GoExpr.star (GoExpr.ident "B"), ""⟩] [])
        (regAddType
          (regAddType [] (parseType "A" [⟨["Next"], GoExpr.star (GoExpr.ident "B"), ""⟩] []))
          (parseType "B" [⟨["Prev"], GoExpr.star (GoExpr.ident "A"), ""⟩] [])) = none ∧
      resolveNestedAndExternalTypes
        ⟨[], "example.com/mod", fun _ _ _ => .error "na", fun _ _ => .error "na"⟩ fuel
        (parseType "B" [⟨["Prev"], GoExpr.star (GoExpr.ident "A"), ""⟩] [])
        (regAddType
          (regAddType [] (parseType "A" [⟨["Next"], GoExpr.star (GoExpr.ident "B"), ""⟩] []))
          (parseType "B" [⟨["Prev"], GoExpr.star (GoExpr.ident "A"), ""⟩] [])) = none := by
  intro fuel
  have key : ∀ n : Nat,
      resolveFields
        ⟨[], "example.com/mod", fun _ _ _ => .error "na", fun _ _ => .error "na"⟩ n
        [{ packageName := "B", name := "Next", type := "B | null",
           jsonName := "", isArray := false, isOptional := true }]
        [("A", { name := "A", fullName := "A",
                 fields := [{ packageName := "B", name := "Next", type := "B | null",
                              jsonName := "", isArray := false, isOptional := true }] }),
         ("B", { name := "B", fullName := "B",
                 fields := [{ packageName := "A", name := "Prev", type := "A | null",
                              jsonName := "", isArray := false, isOptional := true }] })] =
        none ∧
      resolveFields
        ⟨[], "example.com/mod", fun _ _ _ => .error "na", fun _ _ => .error "na"⟩ n
        [{ packageName := "A", name := "Prev", type := "A | null",
           jsonName := "", isArray := false, isOptional := true }]
        [("A", { name := "A", fullName := "A",
                 fields := [{ packageName := "B", name := "Next", type := "B | null",
                              jsonName := "", isArray := false, isOptional := true }] }),
         ("B", { name := "B", fullName := "B",
                 fields := [{ packageName := "A", name := "Prev", type := "A | null",
                              jsonName := "", isArray := false, isOptional := true }] })] =
        none := by
    intro n
    induction n with
    | zero => exact ⟨rfl, rfl⟩
    | succ n ih =>
      refine ⟨?_, ?_⟩
      · have hstep :
            resolveFields
              ⟨[], "example.com/mod", fun _ _ _ => .error "na", fun _ _ => .error "na"⟩ (n + 1)
              [{ packageName := "B", name := "Next", type := "B | null",
                 jsonName := "", isArray := false, isOptional := true }]
              [("A", { name := "A", fullName := "A",
                       fields := [{ packageName := "B", name := "Next", type := "B | null",
                                    jsonName := "", isArray := false, isOptional := true }] }),
               ("B", { name := "B", fullName := "B",
                       fields := [{ packageName := "A", name := "Prev", type := "A | null",
                                    jsonName := "", isArray := false, isOptional := true }] })] =
            match
              resolveFields
                ⟨[], "example.com/mod", fun _ _ _ => .error "na", fun _ _ => .error "na"⟩ n
                [{ packageName := "A", name := "Prev", type := "A | null",
                   jsonName := "", isArray := false, isOptional := true }]
                [("A", { name := "A", fullName := "A",
                         fields := [{ packageName := "B", name := "Next", type := "B | null",
                                      jsonName := "", isArray := false, isOptional := true }] }),
                 ("B", { name := "B", fullName := "B",
                         fields := [{ packageName := "A", name := "Prev", type := "A | null",
                                      jsonName := "", isArray := false, isOptional := true }] })]
            with
            | none => none
            | some r1 =>
              (resolveFields
                ⟨[], "example.com/mod", fun _ _ _ => .error "na", fun _ _ => .error "na"⟩ n []
                (regAddType r1.2.1 { name := "B", fullName := "B", fields := r1.1 })).map
                (fun r =>
                  ({ packageName := "B", name := "Next", type := "B | null",
                     jsonName := "", isArray := false, isOptional := true } :: r.1,
                   r.2.1, r1.2.2 ++ r.2.2)) := rfl
        rw [hstep, ih.2]
      · have hstep :
            resolveFields
              ⟨[], "example.com/mod", fun _ _ _ => .error "na", fun _ _ => .error "na"⟩ (n + 1)
              [{ packageName := "A", name := "Prev", type := "A | null",
                 jsonName := "", isArray := false, isOptional := true }]
              [("A", { name := "A", fullName := "A",
                       fields := [{ packageName := "B", name := "Next", type := "B | null",
                                    jsonName := "", isArray := false, isOptional := true }] }),
               ("B", { name := "B", fullName := "B",
                       fields := [{ packageName := "A", name := "Prev", type := "A | null",
                                    jsonName := "", isArray := false, isOptional := true }] })] =
            match
              resolveFields
                ⟨[], "example.com/mod", fun _ _ _ => .error "na", fun _ _ => .error "na"⟩ n
                [{ packageName := "B", name := "Next", type := "B | null",
                   jsonName := "", isArray := false, isOptional := true }]
                [("A", { name := "A", fullName := "A",
                         fields := [{ packageName := "B", name := "Next", type := "B | null",
                                      jsonName := "", isArray := false, isOptional := true }] }),
                 ("B", { name := "B", fullName := "B",
                         fields := [{ packageName := "A", name := "Prev", type := "A | null",
                                      jsonName := "", isArray := false, isOptional := true }] })]
            with
            | none => none
            | some r1 =>
              (resolveFields
                ⟨[], "example.com/mod", fun _ _ _ => .error "na", fun _ _ => .error "na"⟩ n []
                (regAddType r1.2.1 { name := "A", fullName := "A", fields := r1.1 })).map
                (fun r =>
                  ({ packageName := "A", name := "Prev", type := "A | null",
                     jsonName := "", isArray := false, isOptional := true } :: r.1,
                   r.2.1, r1.2.2 ++ r.2.2)) := rfl
        rw [hstep, ih.1]
  constructor
  · show (resolveFields
        ⟨[], "example.com/mod", fun _ _ _ => .error "na", fun _ _ => .error "na"⟩ fuel
        [{ packageName := "B", name := "Next", type := "B | null",
           jsonName := "", isArray := false, isOptional := true }]
        [("A", { name := "A", fullName := "A",
                 fields := [{ packageName := "B", name := "Next", type := "B | null",
                              jsonName := "", isArray := false, isOptional := true }] }),
         ("B", { name := "B", fullName := "B",
                 fields := [{ packageName := "A", name := "Prev", type := "A | null",
                              jsonName := "", isArray := false, isOptional := true }] })]).map
        (fun r =>
          ({ name := "A", fullName := "A",
             fields := r.1 : TypeInfo }, r.2)) = none
    rw [(key fuel).1]
    rfl
  · show (resolveFields
        ⟨[], "example.com/mod", fun _ _ _ => .error "na", fun _ _ => .error "na"⟩ fuel
        [{ packageName := "A", name := "Prev", type := "A | null",
           jsonName := "", isArray := false, isOptional := true }]
        [("A", { name := "A", fullName := "A",
                 fields := [{ packageName := "B", name := "Next", type := "B | null",
                              jsonName := "", isArray := false, isOptional := true }] }),
         ("B", { name := "B", fullName := "B",
                 fields := [{ packageName := "A", name := "Prev", type := "A | null",
                              jsonName := "", isArray := false, isOptional := true }] })]).map
        (fun r =>
          ({ name := "B", fullName := "B",
             fields := r.1 : TypeInfo }, r.2)) = none
    rw [(key fuel).2]
    rfl

theorem length_filter_le_of_imp {α : Type} (l : List α) (p p' : α → Bool)
    (h : ∀ x, p' x = true → p x = true) :
    (l.filter p').length ≤ (l.filter p).length := by
  induction l with
  | nil => simp
  | cons a l ih =>
    cases hp' : p' a <;> cases hp : p a
    · simp only [List.filter_cons, hp', hp, Bool.false_eq_true, if_false]
      exact ih
    · simp only [List.filter_cons, hp', hp, Bool.false_eq_true, if_false, if_true]
      exact Nat.le_succ_of_le ih
    · exact absurd (h a hp') (by simp [hp])
    · simp only [List.filter_cons, hp', hp, if_true, List.length_cons]
      exact Nat.succ_le_succ ih

theorem length_filter_lt_of_imp {α : Type} (l : List α) (p p' : α → Bool)
    (h : ∀ x, p' x = true → p x = true) (q : α) (hq : q ∈ l)
    (hpq : p q = true) (hpq' : p' q = false) :
    (l.filter p').length < (l.filter p).length := by
  induction l with
  | nil => cases hq
  | cons a l ih =>
    rcases List.mem_cons.mp hq with rfl | hq'
    · simp only [List.filter_cons, hpq, hpq', Bool.false_eq_true, if_false, if_true,
        List.length_cons]
      exact Nat.lt_succ_of_le (length_filter_le_of_imp l p p' h)
    · cases hp' : p' a <;> cases hp : p a
      · simp only [List.filter_cons, hp', hp, Bool.false_eq_true, if_false]
        exact ih hq'
      · simp only [List.filter_cons, hp', hp, Bool.false_eq_true, if_false, if_true,
          List.length_cons]
        exact Nat.lt_succ_of_lt (ih hq')
      · exact absurd (h a hp') (by simp [hp])
      · simp only [List.filter_cons, hp', hp, if_true, List.length_cons]
        exact Nat.succ_lt_succ (ih hq')

set_option maxHeartbeats 1000000 in
theorem typeTargets_mem_allFieldStrips (allTypes : List TypeInfo) (ty m : String)
    (hm : m ∈ typeTargets allTypes ty) : m ∈ allFieldStrips allTypes := by
  unfold typeTargets at hm
  rcases hf : allTypes.find? (fun t => stripArrayName t.name == ty) with _ | t
  · simp only [hf] at hm
    cases hm
  · simp only [hf] at hm
    have ht := List.mem_of_find?_eq_some hf
    unfold allFieldStrips
    refine List.mem_flatten.mpr
      ⟨t.fields.map (fun f => stripArrayName f.type), ?_, hm⟩
    exact List.mem_map_of_mem
      (fun ti : TypeInfo => ti.fields.map (fun f => stripArrayName f.type)) ht

theorem typeTargets_length_le (allTypes : List TypeInfo) (ty : String) :
    (typeTargets allTypes ty).length ≤ totalFieldCount allTypes := by
  unfold typeTargets totalFieldCount
  rcases hf : allTypes.find? (fun t => stripArrayName t.name == ty) with _ | t
  · simp [hf]
  · have ht := List.mem_of_find?_eq_some hf
    rw [hf, List.length_map]
    exact List.single_le_sum (fun x _ => Nat.zero_le x) _
      (List.mem_map_of_mem (fun t : TypeInfo => t.fields.length) ht)

theorem bfsLoop_completes (allTypes : List TypeInfo) (U : List String) (F : Nat)
    (hT : ∀ ty m, m ∈ typeTargets allTypes ty → m ∈ U)
    (hF : ∀ ty, (typeTargets allTypes ty).length ≤ F) :
    ∀ fuel queue visited,
      (∀ x ∈ queue, x ∈ U) →
      (U.filter (fun x => !visited.contains x)).length * (1 + F) + queue.length ≤ fuel →
      ∃ v, bfsLoop allTypes fuel queue visited = some v := by
  intro fuel
  induction fuel with
  | zero =>
    intro queue visited hq hm
    cases queue with
    | nil => exact ⟨visited, rfl⟩
    | cons q rest =>
      simp only [List.length_cons] at hm
      omega
  | succ fuel ih =>
    intro queue visited hq hm
    cases queue with
    | nil => exact ⟨visited, rfl⟩
    | cons q rest =>
      have hstep : bfsLoop allTypes (fuel + 1) (q :: rest) visited =
          if visited.contains q then bfsLoop allTypes fuel rest visited
          else
            bfsLoop allTypes fuel
              (rest ++ (typeTargets allTypes q).filter
                (fun ft => !(visited ++ [q]).contains ft))
              (visited ++ [q]) := rfl
      by_cases hv : visited.contains q = true
      · rw [hstep, if_pos hv]
        refine ih rest visited (fun x hx => hq x (List.mem_cons_of_mem _ hx)) ?_
        simp only [List.length_cons] at hm
        omega
      · have hvf : visited.contains q = false := by simpa using hv
        rw [hstep, if_neg hv]
        refine ih _ _ ?_ ?_
        · intro x hx
          rcases List.mem_append.mp hx with hx | hx
          · exact hq x (List.mem_cons_of_mem _ hx)
          · exact hT q x (List.mem_of_mem_filter hx)
        · have hlt : (U.filter (fun x => !(visited ++ [q]).contains x)).length <
              (U.filter (fun x => !visited.contains x)).length := by
            refine length_filter_lt_of_imp U _ _ ?_ q (hq q (List.mem_cons_self _ _)) ?_ ?_
            · intro x hx
              simp at hx ⊢
              exact hx.1
            · simp
              simpa using hvf
            · simp
          have henq : ((typeTargets allTypes q).filter
              (fun ft => !(visited ++ [q]).contains ft)).length ≤ F :=
            le_trans (List.length_filter_le _ _) (hF q)
          have hmul : ((U.filter (fun x => !(visited ++ [q]).contains x)).length + 1) * (1 + F) ≤
              (U.filter (fun x => !visited.contains x)).length * (1 + F) :=
            Nat.mul_le_mul_right _ hlt
          rw [Nat.add_mul, Nat.one_mul] at hmul
          simp only [List.length_append, List.length_cons] at hm ⊢
          omega

theorem bfsLoop_visited_spec (allTypes : List TypeInfo) (seeds : List String) :
    ∀ fuel queue visited v,
      bfsLoop allTypes fuel queue visited = some v →
      (∀ x ∈ visited, Reaches allTypes seeds x) →
      (∀ x ∈ queue, Reaches allTypes seeds x) →
      (∀ x ∈ visited, ∀ m ∈ typeTargets allTypes x, m ∈ visited ∨ m ∈ queue) →
      (∀ s ∈ seeds, s ∈ visited ∨ s ∈ queue) →
      (∀ x ∈ v, Reaches allTypes seeds x) ∧ (∀ s ∈ seeds, s ∈ v) ∧
        (∀ x ∈ v, ∀ m ∈ typeTargets allTypes x, m ∈ v) := by
  intro fuel
  induction fuel with
  | zero =>
    intro queue visited v hrun h1 h2 h3 h4
    cases queue with
    | nil =>
      have hv : visited = v := Option.some.inj hrun
      subst hv
      refine ⟨h1, ?_, ?_⟩
      · intro s hs
        rcases h4 s hs with h | h
        · exact h
        · cases h
      · intro x hx m hmm
        rcases h3 x hx m hmm with h | h
        · exact h
        · cases h
    | cons q rest => exact Option.noConfusion hrun
  | succ fuel ih =>
    intro queue visited v hrun h1 h2 h3 h4
    cases queue with
    | nil =>
      have hv : visited = v := Option.some.inj hrun
      subst hv
      refine ⟨h1, ?_, ?_⟩
      · intro s hs
        rcases h4 s hs with h | h
        · exact h
        · cases h
      · intro x hx m hmm
        rcases h3 x hx m hmm with h | h
        · exact h
        · cases h
    | cons q rest =>
      have hstep : bfsLoop allTypes (fuel + 1) (q :: rest) visited =
          if visited.contains q then bfsLoop allTypes fuel rest visited
          else
            bfsLoop allTypes fuel
              (rest ++ (typeTargets allTypes q).filter
                (fun ft => !(visited ++ [q]).contains ft))
              (visited ++ [q]) := rfl
      rw [hstep] at hrun
      by_cases hv : visited.contains q = true
      · rw [if_pos hv] at hrun
        have hqvis : q ∈ visited := by simpa using hv
        refine ih rest visited v hrun h1
          (fun x hx => h2 x (List.mem_cons_of_mem _ hx)) ?_ ?_
        · intro x hx m hmm
          rcases h3 x hx m hmm with h | h
          · exact Or.inl h
          · rcases List.mem_cons.mp h with rfl | h
            · exact Or.inl hqvis
            · exact Or.inr h
        · intro s hs
          rcases h4 s hs with h | h
          · exact Or.inl h
          · rcases List.mem_cons.mp h with rfl | h
            · exact Or.inl hqvis
            · exact Or.inr h
      · rw [if_neg hv] at hrun
        have hq : Reaches allTypes seeds q := h2 q (List.mem_cons_self _ _)
        refine ih _ _ v hrun ?_ ?_ ?_ ?_
        · intro x hx
          rcases List.mem_append.mp hx with hx | hx
          · exact h1 x hx
          · rw [List.mem_singleton] at hx
            subst hx
            exact hq
        · intro x hx
          rcases List.mem_append.mp hx with hx | hx
          · exact h2 x (List.mem_cons_of_mem _ hx)
          · exact Reaches.step q x hq (List.mem_of_mem_filter hx)
        · intro x hx m hmm
          rcases List.mem_append.mp hx with hx | hx
          · rcases h3 x hx m hmm with h | h
            · exact Or.inl (List.mem_append_left _ h)
            · rcases List.mem_cons.mp h with rfl | h
              · exact Or.inl (List.mem_append_right _ (List.mem_singleton_self _))
              · exact Or.inr (List.mem_append_left _ h)
          · rw [List.mem_singleton] at hx
            subst hx
            by_cases hmv : m ∈ visited ++ [x]
            · exact Or.inl hmv
            · refine Or.inr (List.mem_append_right _ ?_)
              rw [List.mem_filter]
              refine ⟨hmm, ?_⟩
              simpa using hmv
        · intro s hs
          rcases h4 s hs with h | h
          · exact Or.inl (List.mem_append_left _ h)
          · rcases List.mem_cons.mp h with rfl | h
            · exact Or.inl (List.mem_append_right _ (List.mem_singleton_self _))
            · exact Or.inr (List.mem_append_left _ h)

theorem reaches_mem_of_closed (allTypes : List TypeInfo) (seeds : List String)
    (v : List String) (hseed : ∀ s ∈ seeds, s ∈ v)
    (hclosed : ∀ x ∈ v, ∀ m ∈ typeTargets allTypes x, m ∈ v) :
    ∀ x, Reaches allTypes seeds x → x ∈ v := by
  intro x hx
  induction hx with
  | seed s hs => exact hseed s hs
  | step n m _ hm ih => exact hclosed n ih m hm

/-- C7 (confirmed): filterUsedTypes terminates for every input — the
breadth-first loop drains its queue within a fuel bound determined by the
registry size even on cyclic type graphs — and returns exactly the
reachability closure: a type is kept iff its stripped name is reachable
from some handler input or output type through stripped field types. -/
theorem filterUsedTypes_exact_reachability (allTypes : List TypeInfo)
    (handlers : List HandlerInfo) :
    ∃ out, filterUsedTypes allTypes handlers = some out ∧
      ∀ t, t ∈ out ↔ (t ∈ allTypes ∧
        Reaches allTypes (seedList handlers) (stripArrayName t.name)) := by
  have hT : ∀ ty m, m ∈ typeTargets allTypes ty →
      m ∈ seedList handlers ++ allFieldStrips allTypes :=
    fun ty m hm => List.mem_append_right _ (typeTargets_mem_allFieldStrips allTypes ty m hm)
  have hF := typeTargets_length_le allTypes
  have hm0 : ((seedList handlers ++ allFieldStrips allTypes).filter
        (fun x => !([] : List String).contains x)).length * (1 + totalFieldCount allTypes) +
      (seedList handlers).length ≤ bfsFuel allTypes handlers := by
    have hfil : ((seedList handlers ++ allFieldStrips allTypes).filter
        (fun x => !([] : List String).contains x)) =
        seedList handlers ++ allFieldStrips allTypes := by
      simp
    rw [hfil]
    unfold bfsFuel
    have hlen : (seedList handlers).length ≤
        (seedList handlers ++ allFieldStrips allTypes).length := by
      rw [List.length_append]
      omega
    omega
  obtain ⟨v, hv⟩ := bfsLoop_completes allTypes
    (seedList handlers ++ allFieldStrips allTypes) (totalFieldCount allTypes) hT hF
    (bfsFuel allTypes handlers) (seedList handlers) []
    (fun x hx => List.mem_append_left _ hx) hm0
  obtain ⟨hsound, hseedv, hclosedv⟩ := bfsLoop_visited_spec allTypes (seedList handlers)
    (bfsFuel allTypes handlers) (seedList handlers) [] v hv
    (by intro x hx; cases hx)
    (fun x hx => Reaches.seed x hx)
    (by intro x hx; cases hx)
    (fun s hs => Or.inr hs)
  refine ⟨allTypes.filter (fun t => v.contains (stripArrayName t.name)), ?_, ?_⟩
  · unfold filterUsedTypes
    rw [hv]
    rfl
  · intro t
    constructor
    · intro ht
      rw [List.mem_filter] at ht
      exact ⟨ht.1, hsound _ (by simpa using ht.2)⟩
    · rintro ⟨htm, hr⟩
      rw [List.mem_filter]
      refine ⟨htm, ?_⟩
      have hmem := reaches_mem_of_closed allTypes (seedList handlers) v hseedv hclosedv _ hr
      simpa using hmem
